import Mathlib

/-!
A verification development for the stellarsolver repository.

Part 1 embeds the demo command-line tool src/demos/stellarextractsolver.cpp
(its option-parsing loop, the ASTROMETRY_INDEX_FILES environment step, and
the per-image processing loop up to the value main returns).  The
filesystem, image loader, solver and extractor are external collaborators,
abstracted as boolean oracles, exactly as the demo consumes them.

Part 2 embeds the solver core (star extraction, quad matching,
verification, the best-match slot and the solve controller).  The core's
code is not among the repository's staged files, only its declarations
(src/mainwindow.h) and callers (the demos) are, so those definitions are
modelled from the specification's words and carry a doc comment saying so.
-/

namespace StellarSolverSpec

/-! ### Part 1: the demo command-line tool, src/demos/stellarextractsolver.cpp -/

/-- The helper addPathToListIfExists of src/demos/stellarextractsolver.cpp
(taken there from stellarsolver.cpp): appends the path to the list only when
the filesystem, abstracted as the predicate ex, says the path exists. -/
def addPathToListIfExists (ex : String → Bool) (list : List String) (path : String) :
    List String :=
  if ex path then list ++ [path] else list

/-- The variables of main in src/demos/stellarextractsolver.cpp that the
option-parsing loop writes. -/
structure Opts where
  catalogDirectories : List String
  imageFiles : List String
  flagVerbosity : Int
  flagOverwrite : Bool
  flagSkipSolved : Bool
  outputFilename : Option String
deriving DecidableEq

/-- The state of main's variables before the parse loop: verbosity 1
(normal), all flags clear, no output file, catalogDirectories seeded from
StellarSolver getDefaultIndexFolderPaths (an external collaborator, passed
in as defaults). -/
def initOpts (defaults : List String) : Opts :=
  { catalogDirectories := defaults
    imageFiles := []
    flagVerbosity := 1
    flagOverwrite := false
    flagSkipSolved := false
    outputFilename := none }

/-- The test strncmp of the first two bytes of an argument against dash and
capital I, from the parse loop of main. -/
def argIsDashI (a : String) : Bool :=
  match a.data with
  | c1 :: c2 :: _ => c1 == '-' && c2 == 'I'
  | _ => false

/-- The test argv[i][0] == '-' of the parse loop of main. -/
def argStartsDash (a : String) : Bool :=
  match a.data with
  | c :: _ => c == '-'
  | _ => false

/-- Outcome of the option-parsing loop: either the final state of main's
variables, or print_usage was reached, which prints help and exits the
process with status 0 before any image is visited. -/
inductive ParseResult where
  | usage
  | ok (st : Opts)
deriving DecidableEq

/-- The option-parsing loop of main (the for loop over argv in
src/demos/stellarextractsolver.cpp).  Faithful details: a dash-I argument
longer than two characters contributes its tail through
addPathToListIfExists; a bare dash-I followed by another argument hands the
token itself (not the following argument) to addPathToListIfExists and
skips the following argument, as the C code's argv[i++] inside the call
does; likewise -o and --out record the option token itself as
outputFilename and skip the following argument; a lone -o or --out as the
last argument fails the i+1 < argc guard and falls through the chain to
print_usage; an argument that starts with a dash and matches nothing
reaches print_usage; any other argument is handed to addPathToListIfExists
for the image list. -/
def parseArgs (ex : String → Bool) : List String → Opts → ParseResult
  | [], st => .ok st
  | a :: rest, st =>
    if argIsDashI a then
      if 2 < a.length then
        parseArgs ex rest
          { st with catalogDirectories :=
              addPathToListIfExists ex st.catalogDirectories (a.drop 2) }
      else
        match rest with
        | [] => .ok st
        | _ :: rest' =>
          parseArgs ex rest'
            { st with catalogDirectories :=
                addPathToListIfExists ex st.catalogDirectories a }
    else if a = "-o" ∨ a = "--out" then
      match rest with
      | [] => .usage
      | _ :: rest' => parseArgs ex rest' { st with outputFilename := some a }
    else if a = "--verbose" then parseArgs ex rest { st with flagVerbosity := 2 }
    else if a = "--silent" then parseArgs ex rest { st with flagVerbosity := 0 }
    else if a = "--overwrite" then parseArgs ex rest { st with flagOverwrite := true }
    else if a = "--skip-solved" then parseArgs ex rest { st with flagSkipSolved := true }
    else if argStartsDash a then .usage
    else
      parseArgs ex rest
        { st with imageFiles := addPathToListIfExists ex st.imageFiles a }

/-- The step of main after the parse loop: when getenv on
ASTROMETRY_INDEX_FILES is non-null, its value is handed to
addPathToListIfExists for the catalog-directory list; otherwise nothing
happens. -/
def addEnvIndexPath (ex : String → Bool) (envVar : Option String) (dirs : List String) :
    List String :=
  match envVar with
  | none => dirs
  | some p => addPathToListIfExists ex dirs p

/-- Behaviour of the external collaborators for one image of the loop:
whether the per-image output file already exists on disk, whether fileio
loadImage succeeds, whether StellarSolver solve succeeds and whether the
later extract call succeeds. -/
structure ImageEnv where
  outputExists : Bool
  loads : Bool
  solves : Bool
  extracts : Bool
deriving DecidableEq

/-- The skip test at the top of the image loop: flagSkipSolved, a non-zero
snprintf count (the output name is the image name plus a five-character
suffix), the output file existing, and flagVerbosity at least 2, must all
hold for the continue to run. -/
def skipsImage (st : Opts) (name : String) (e : ImageEnv) : Bool :=
  st.flagSkipSolved && decide (name.length + 5 ≠ 0) && e.outputExists
    && decide (2 ≤ st.flagVerbosity)

/-- Whether one pass of the image loop reaches the increment of
imageFilesCounter: the image is not skipped, loadImage succeeds and solve
succeeds.  The increment stands before the extract call, so a later
extraction failure does not undo it. -/
def imageCounted (st : Opts) (name : String) (e : ImageEnv) : Bool :=
  if skipsImage st name e then false
  else if !e.loads then false
  else if !e.solves then false
  else true

/-- The image loop of main with its counter accumulator. -/
def imageLoop (st : Opts) (fate : String → ImageEnv) : List String → Nat → Nat
  | [], counter => counter
  | name :: rest, counter =>
      imageLoop st fate rest
        (counter + (if imageCounted st name (fate name) then 1 else 0))

/-- The value main returns (the process exit status): 0 when print_usage
ended the run, otherwise the final value of imageFilesCounter after the
image loop, run on the state with the environment-variable catalog path
added. -/
def mainReturn (ex : String → Bool) (fate : String → ImageEnv) (envVar : Option String)
    (defaults : List String) (args : List String) : Nat :=
  match parseArgs ex args (initOpts defaults) with
  | .usage => 0
  | .ok st =>
      let stF : Opts :=
        { st with catalogDirectories := addEnvIndexPath ex envVar st.catalogDirectories }
      imageLoop stF fate stF.imageFiles 0

/-! ### Lemmas about the demo tool -/

theorem addPath_all (ex : String → Bool) (l : List String) (p : String)
    (hl : l.all ex = true) : (addPathToListIfExists ex l p).all ex = true := by
  unfold addPathToListIfExists
  by_cases h : ex p = true <;> simp [h, hl]

theorem parseArgs_cons (ex : String → Bool) (a : String) (rest : List String)
    (st : Opts) :
    parseArgs ex (a :: rest) st =
      (if argIsDashI a then
        if 2 < a.length then
          parseArgs ex rest
            { st with catalogDirectories :=
                addPathToListIfExists ex st.catalogDirectories (a.drop 2) }
        else
          match rest with
          | [] => .ok st
          | _ :: rest' =>
            parseArgs ex rest'
              { st with catalogDirectories :=
                  addPathToListIfExists ex st.catalogDirectories a }
      else if a = "-o" ∨ a = "--out" then
        match rest with
        | [] => .usage
        | _ :: rest' => parseArgs ex rest' { st with outputFilename := some a }
      else if a = "--verbose" then parseArgs ex rest { st with flagVerbosity := 2 }
      else if a = "--silent" then parseArgs ex rest { st with flagVerbosity := 0 }
      else if a = "--overwrite" then parseArgs ex rest { st with flagOverwrite := true }
      else if a = "--skip-solved" then
        parseArgs ex rest { st with flagSkipSolved := true }
      else if argStartsDash a then .usage
      else
        parseArgs ex rest
          { st with imageFiles := addPathToListIfExists ex st.imageFiles a }) := by
  rw [parseArgs.eq_def]

theorem argIsDashI_eq_false (a : String) (ha : argStartsDash a = false) :
    argIsDashI a = false := by
  unfold argIsDashI argStartsDash at *
  rcases hd : a.data with _ | ⟨c, _ | ⟨c2, t⟩⟩
  · rfl
  · rfl
  · rw [hd] at ha
    have ha' : (c == '-') = false := ha
    show (c == '-' && c2 == 'I') = false
    rw [ha']
    rfl

theorem ne_of_dashless (a s : String) (ha : argStartsDash a = false)
    (hs : argStartsDash s = true) : a ≠ s := by
  intro h
  rw [h, hs] at ha
  exact absurd ha (by decide)

theorem parseArgs_all_exists_aux (ex : String → Bool) :
    ∀ (n : Nat) (args : List String), args.length ≤ n → ∀ (st st' : Opts),
      parseArgs ex args st = .ok st' →
      st.imageFiles.all ex = true →
      st.catalogDirectories.all ex = true →
      st'.imageFiles.all ex = true ∧ st'.catalogDirectories.all ex = true := by
  intro n
  induction n with
  | zero =>
    intro args hlen st st' h himg hcat
    have hargs : args = [] := List.eq_nil_of_length_eq_zero (Nat.le_zero.mp hlen)
    subst hargs
    cases h
    exact ⟨himg, hcat⟩
  | succ n ih =>
    intro args hlen st st' h himg hcat
    cases args with
    | nil =>
      cases h
      exact ⟨himg, hcat⟩
    | cons a rest =>
      have hrest : rest.length ≤ n := by simp at hlen; omega
      rw [parseArgs_cons] at h
      by_cases hI : argIsDashI a = true
      · rw [if_pos hI] at h
        by_cases hlen2 : 2 < a.length
        · rw [if_pos hlen2] at h
          exact ih rest hrest _ _ h himg (addPath_all ex _ _ hcat)
        · rw [if_neg hlen2] at h
          cases rest with
          | nil =>
            cases h
            exact ⟨himg, hcat⟩
          | cons b rest' =>
            have hrest' : rest'.length ≤ n := by simp at hlen; omega
            exact ih rest' hrest' _ _ h himg (addPath_all ex _ _ hcat)
      · rw [if_neg hI] at h
        by_cases ho : a = "-o" ∨ a = "--out"
        · rw [if_pos ho] at h
          cases rest with
          | nil => cases h
          | cons b rest' =>
            have hrest' : rest'.length ≤ n := by simp at hlen; omega
            exact ih rest' hrest' _ _ h himg hcat
        · rw [if_neg ho] at h
          by_cases hv : a = "--verbose"
          · rw [if_pos hv] at h
            exact ih rest hrest _ _ h himg hcat
          · rw [if_neg hv] at h
            by_cases hs : a = "--silent"
            · rw [if_pos hs] at h
              exact ih rest hrest _ _ h himg hcat
            · rw [if_neg hs] at h
              by_cases hw : a = "--overwrite"
              · rw [if_pos hw] at h
                exact ih rest hrest _ _ h himg hcat
              · rw [if_neg hw] at h
                by_cases hk : a = "--skip-solved"
                · rw [if_pos hk] at h
                  exact ih rest hrest _ _ h himg hcat
                · rw [if_neg hk] at h
                  by_cases hd : argStartsDash a = true
                  · rw [if_pos hd] at h
                    cases h
                  · rw [if_neg hd] at h
                    exact ih rest hrest _ _ h (addPath_all ex _ _ himg) hcat

theorem parseArgs_all_exists (ex : String → Bool) (args : List String) (st st' : Opts)
    (h : parseArgs ex args st = .ok st')
    (himg : st.imageFiles.all ex = true)
    (hcat : st.catalogDirectories.all ex = true) :
    st'.imageFiles.all ex = true ∧ st'.catalogDirectories.all ex = true :=
  parseArgs_all_exists_aux ex args.length args le_rfl st st' h himg hcat

theorem imageCounted_eq (st : Opts) (name : String) (e : ImageEnv) :
    imageCounted st name e
      = (!(skipsImage st name e) && e.loads && e.solves) := by
  unfold imageCounted
  cases hs : skipsImage st name e <;> cases hl : e.loads <;> cases hv : e.solves <;>
    simp

theorem imageLoop_eq_filter (st : Opts) (fate : String → ImageEnv) :
    ∀ (l : List String) (counter : Nat),
      imageLoop st fate l counter
        = counter + (l.filter (fun n => imageCounted st n (fate n))).length := by
  intro l
  induction l with
  | nil => intro counter; simp [imageLoop]
  | cons n rest ih =>
    intro counter
    rw [imageLoop, ih]
    by_cases h : imageCounted st n (fate n) = true
    · simp [List.filter_cons, h]
      omega
    · simp [List.filter_cons, h]

/-! ### Claim theorems for the demo tool -/

/-- C7: when the ASTROMETRY_INDEX_FILES environment variable is set and
names an existing path, that path is appended to the catalog-directory
list; when it is unset, or set to a path that does not exist, the list is
unchanged by this step. -/
theorem env_index_path_step (ex : String → Bool) (envVar : Option String)
    (dirs : List String) (p : String) :
    (envVar = some p → ex p = true → addEnvIndexPath ex envVar dirs = dirs ++ [p])
    ∧ (envVar = none → addEnvIndexPath ex envVar dirs = dirs)
    ∧ (envVar = some p → ex p = false → addEnvIndexPath ex envVar dirs = dirs) := by
  refine ⟨?_, ?_, ?_⟩
  · intro h hx
    subst h
    simp [addEnvIndexPath, addPathToListIfExists, hx]
  · intro h
    subst h
    rfl
  · intro h hx
    subst h
    simp [addEnvIndexPath, addPathToListIfExists, hx]

/-- C8: main returns (as the process exit status) exactly the number of
images of the parsed image list that were actually processed, that is, not
skipped by the skip-solved test, successfully loaded, and successfully
plate-solved; images that fail to load or fail to solve are not counted. -/
theorem main_return_counts_processed (ex : String → Bool) (fate : String → ImageEnv)
    (envVar : Option String) (defaults : List String) (args : List String) (st : Opts)
    (h : parseArgs ex args (initOpts defaults) = .ok st) :
    mainReturn ex fate envVar defaults args =
      (st.imageFiles.filter (fun name =>
        !(skipsImage st name (fate name))
          && (fate name).loads && (fate name).solves)).length := by
  have hmain : mainReturn ex fate envVar defaults args
      = imageLoop
          { st with catalogDirectories :=
              addEnvIndexPath ex envVar st.catalogDirectories }
          fate st.imageFiles 0 := by
    unfold mainReturn
    rw [h]
  rw [hmain, imageLoop_eq_filter]
  simp only [Nat.zero_add]
  have hfun : ∀ n : String,
      imageCounted
        { st with catalogDirectories := addEnvIndexPath ex envVar st.catalogDirectories }
        n (fate n)
      = (!(skipsImage st n (fate n)) && (fate n).loads && (fate n).solves) := by
    intro n
    rw [imageCounted_eq]
    rfl
  rw [List.filter_congr (fun n _ => hfun n)]

/-- C8 witness: a concrete run with two image arguments of which one loads
and solves and the other fails to solve returns 1, the number of processed
images. -/
theorem main_return_counts_processed_witness :
    mainReturn (fun s => decide (s = "img1" ∨ s = "img2"))
      (fun n => if n = "img1" then ⟨false, true, true, true⟩
                else ⟨false, true, false, true⟩)
      none [] ["img1", "--overwrite", "img2"]
      = (((Opts.mk [] ["img1", "img2"] 1 true false none).imageFiles).filter
          (fun name =>
            !(skipsImage (Opts.mk [] ["img1", "img2"] 1 true false none) name
                ((fun n => if n = "img1" then (⟨false, true, true, true⟩ : ImageEnv)
                           else ⟨false, true, false, true⟩) name))
              && ((fun n => if n = "img1" then (⟨false, true, true, true⟩ : ImageEnv)
                            else ⟨false, true, false, true⟩) name).loads
              && ((fun n => if n = "img1" then (⟨false, true, true, true⟩ : ImageEnv)
                            else ⟨false, true, false, true⟩) name).solves)).length :=
  main_return_counts_processed
    (fun s => decide (s = "img1" ∨ s = "img2"))
    (fun n => if n = "img1" then ⟨false, true, true, true⟩
              else ⟨false, true, false, true⟩)
    none [] ["img1", "--overwrite", "img2"]
    (Opts.mk [] ["img1", "img2"] 1 true false none)
    (by decide)

/-- C9: with the skip-solved flag given and the per-image output file
already existing, the image loop's skip test fires exactly when verbosity
is at least 2, that is, only in verbose mode; under normal or silent
verbosity the skip test fails, so the image is re-processed and counted
exactly when it loads and solves. -/
theorem skip_solved_needs_verbose (st : Opts) (name : String) (e : ImageEnv)
    (hskip : st.flagSkipSolved = true) (hex : e.outputExists = true) :
    skipsImage st name e = decide (2 ≤ st.flagVerbosity)
    ∧ (st.flagVerbosity < 2 → imageCounted st name e = (e.loads && e.solves)) := by
  have h1 : skipsImage st name e = decide (2 ≤ st.flagVerbosity) := by
    unfold skipsImage
    rw [hskip, hex]
    simp
  refine ⟨h1, ?_⟩
  intro hv
  rw [imageCounted_eq, h1]
  have : decide (2 ≤ st.flagVerbosity) = false := by
    simp
    omega
  rw [this]
  rfl

/-- C9 witness: at the concrete state with skip-solved set and normal
verbosity 1, and an image whose output file exists, the skip test is false
and the image is processed when it loads and solves. -/
theorem skip_solved_needs_verbose_witness :
    skipsImage (Opts.mk [] [] 1 false true none) "im" ⟨true, true, true, true⟩
        = decide (2 ≤ (Opts.mk [] [] 1 false true none).flagVerbosity)
    ∧ ((Opts.mk [] [] 1 false true none).flagVerbosity < 2 →
        imageCounted (Opts.mk [] [] 1 false true none) "im" ⟨true, true, true, true⟩
          = ((true : Bool) && true)) :=
  skip_solved_needs_verbose (Opts.mk [] [] 1 false true none) "im"
    ⟨true, true, true, true⟩ rfl rfl

/-- C10: a command-line argument that names an image file (an argument not
starting with a dash) that does not exist at parse time is silently
dropped: the parse continues on the identical state, producing no error and
no usage exit; and when the lists of the starting state hold only existing
paths, so do the lists of the final state, so the image loop only visits
paths that existed when options were parsed. -/
theorem nonexistent_args_dropped (ex : String → Bool) (a : String)
    (rest args : List String) (st st' : Opts)
    (ha : argStartsDash a = false) (hex : ex a = false)
    (h : parseArgs ex args st = .ok st')
    (himg : st.imageFiles.all ex = true)
    (hcat : st.catalogDirectories.all ex = true) :
    parseArgs ex (a :: rest) st = parseArgs ex rest st
    ∧ st'.imageFiles.all ex = true
    ∧ st'.catalogDirectories.all ex = true := by
  have hI : argIsDashI a = false := argIsDashI_eq_false a ha
  have hno : ¬(a = "-o" ∨ a = "--out") := by
    rintro (hh | hh) <;> exact ne_of_dashless a _ ha (by decide) hh
  have hv : a ≠ "--verbose" := ne_of_dashless a _ ha (by decide)
  have hs : a ≠ "--silent" := ne_of_dashless a _ ha (by decide)
  have hw : a ≠ "--overwrite" := ne_of_dashless a _ ha (by decide)
  have hk : a ≠ "--skip-solved" := ne_of_dashless a _ ha (by decide)
  refine ⟨?_, parseArgs_all_exists ex args st st' h himg hcat⟩
  rw [parseArgs_cons, if_neg (by simp [hI]), if_neg hno, if_neg hv, if_neg hs,
    if_neg hw, if_neg hk, if_neg (by simp [ha])]
  unfold addPathToListIfExists
  rw [hex]
  rfl

/-- C10 witness: with a one-file filesystem, the nonexistent argument nofile
is dropped from a concrete parse without error and the parsed lists hold
only existing paths. -/
theorem nonexistent_args_dropped_witness :
    parseArgs (fun s => decide (s = "img1")) ["nofile", "img1"] (initOpts [])
        = parseArgs (fun s => decide (s = "img1")) ["img1"] (initOpts [])
    ∧ (Opts.mk [] ["img1"] 1 false false none).imageFiles.all
        (fun s => decide (s = "img1")) = true
    ∧ (Opts.mk [] ["img1"] 1 false false none).catalogDirectories.all
        (fun s => decide (s = "img1")) = true :=
  nonexistent_args_dropped (fun s => decide (s = "img1")) "nofile" ["img1"]
    ["nofile", "img1"] (initOpts []) (Opts.mk [] ["img1"] 1 false false none)
    (by decide) (by decide) (by decide) (by decide) (by decide)

/-! ### Part 2: the solver core, modelled from the specification

The star-extraction engine and the blind matcher/verifier live in the
StellarSolver library that the demos link against; their code is not among
the repository's staged files (src/mainwindow.h declares the log-odds
thresholds and the abort slot, the demos call extract and solve), so the
definitions below are modelled from the specification's words.  Machine
real numbers are modelled as integers: positions, transforms and scores
are Int, and closeness is compared on squared distances. -/

/-- Modelled from the spec: a Star as the extractor publishes it — pixel
position and flux (the further photometric fields play no part in the
claims below). -/
structure Star where
  x : Int
  y : Int
  flux : Int
deriving DecidableEq

/-- Modelled from the spec: the affine transform hypothesis of a
CandidateMatch or Solution, mapping pixel coordinates to catalog sky
coordinates. -/
structure Transform where
  a : Int
  b : Int
  c : Int
  d : Int
  e : Int
  f : Int
deriving DecidableEq

/-- Applying a Transform to a pixel position. -/
def Transform.apply (t : Transform) (p : Int × Int) : Int × Int :=
  (t.a * p.1 + t.b * p.2 + t.c, t.d * p.1 + t.e * p.2 + t.f)

/-- Determinant of the linear part; its sign fixes the parity of a
Solution. -/
def Transform.det (t : Transform) : Int := t.a * t.e - t.b * t.d

/-- Squared euclidean distance between two positions. -/
def dist2 (p q : Int × Int) : Int := (p.1 - q.1) ^ 2 + (p.2 - q.2) ^ 2

/-- Modelled from the spec: one correspondence inside an accepted match — a
pixel position of an extracted star and the sky position of the catalog
star it agrees with. -/
structure MatchedPair where
  pixel : Int × Int
  catalog : Int × Int
deriving DecidableEq

/-- Modelled from the spec: a CandidateMatch — a transform hypothesis, the
agreeing correspondences the verifier found for it, and its log-odds
score. -/
structure CandidateMatch where
  transform : Transform
  pairs : List MatchedPair
  logodds : Int
deriving DecidableEq

/-- Modelled from the spec: a Solution — the transform used to map pixel
coordinates to sky coordinates, the matched correspondences it was fit
from, and the parity (flipped when the transform's determinant is
negative). -/
structure Solution where
  transform : Transform
  pairs : List MatchedPair
  parityFlipped : Bool
deriving DecidableEq

/-- Modelled from the spec: an IndexFile — a scale-bounded partition of sky
holding one precomputed geometric code with the transform hypothesis it
stands for and the reference star positions needed to verify a match. -/
structure IndexFile where
  code : Int
  quadTransform : Transform
  refStars : List (Int × Int)
  scaleLo : Int
  scaleHi : Int
deriving DecidableEq

/-- Modelled from the spec: the SolveParameters bundle — the three log-odds
thresholds declared in src/mainwindow.h, the attempt budget (elapsed time
or number of subsets, counted here in subset probes), the agreement
tolerance, the geometric-code lookup tolerance, the scale bounds, and the
extraction threshold multiplier. -/
structure SolveParameters where
  logratio_tosolve : Int
  logratio_tokeep : Int
  logratio_totune : Int
  budget : Nat
  tol : Int
  codeTol : Int
  minScale : Int
  maxScale : Int
  detectK : Int
deriving DecidableEq

/-- Modelled from the spec: the failure taxonomy of solve. -/
inductive SolveFailure where
  | noSolution
  | aborted
  | indexUnavailable
deriving DecidableEq

/-- Modelled from the spec: the typed result of solve, a Solution or a
failure. -/
inductive SolveResult where
  | solved (sol : Solution)
  | failed (f : SolveFailure)
deriving DecidableEq

/-- Modelled from the spec: the verifier's search for a reference star
agreeing with a projected position — the first catalog star within the
tolerance, compared on squared distance. -/
def agreeingRef (tol : Int) (refStars : List (Int × Int)) (p : Int × Int) :
    Option (Int × Int) :=
  refStars.find? (fun r => decide (dist2 p r ≤ tol * tol))

/-- Modelled from the spec: the verifier projects every extracted star
through the hypothesis transform into catalog space and keeps the
agreements as matched pairs. -/
def buildPairs (tol : Int) (t : Transform) (stars : List Star)
    (refStars : List (Int × Int)) : List MatchedPair :=
  stars.filterMap (fun s =>
    (agreeingRef tol refStars (t.apply (s.x, s.y))).map
      (fun r => MatchedPair.mk (s.x, s.y) r))

/-- Modelled from the spec: the log-odds score compares agreements against
the chance-alignment expectation for that many trials; the spec leaves the
exact statistical formula to calibration, so the model scores each
agreement ten to one against each trial. -/
def logOdds (agree trials : Nat) : Int := 10 * (agree : Int) - (trials : Int)

/-- Modelled from the spec: verifying one index hit produces a
CandidateMatch carrying the hypothesis transform, the agreeing pairs and
the log-odds score. -/
def verifyCandidate (tol : Int) (stars : List Star) (idx : IndexFile) :
    CandidateMatch :=
  let pairs := buildPairs tol idx.quadTransform stars idx.refStars
  CandidateMatch.mk idx.quadTransform pairs (logOdds pairs.length stars.length)

/-- Modelled from the spec: the scale- and rotation-invariant numeric
signature of a subset of stars; the spec leaves the exact formula open, so
the model uses a position hash. -/
def quadCode (q : List Star) : Int := (q.map (fun s => s.x + 2 * s.y)).sum

/-- Modelled from the spec: the quad matcher enumerates subsets of four
stars. -/
def quads (stars : List Star) : List (List Star) := List.sublistsLen 4 stars

/-- Modelled from the spec: whether an IndexFile's scale band overlaps the
requested scale bounds. -/
def indexUsable (params : SolveParameters) (idx : IndexFile) : Bool :=
  decide (idx.scaleLo ≤ params.maxScale) && decide (params.minScale ≤ idx.scaleHi)

/-- Modelled from the spec: for each enumerated quad, the matcher probes
the usable index files for codes within the lookup tolerance and hands
each hit to the verifier; every probe contributes at most its verified
CandidateMatch values, in enumeration order. -/
def genCandidates (params : SolveParameters) (stars : List Star)
    (index : List IndexFile) : List CandidateMatch :=
  (quads stars).flatMap (fun q =>
    (index.filter (fun idx => decide ((quadCode q - idx.code) ^ 2 ≤ params.codeTol))).map
      (verifyCandidate params.tol stars))

/-- Modelled from the spec: the single-writer best-match slot — a candidate
replaces the current best only when its log-odds score is strictly
higher. -/
def updateBest (best : Option CandidateMatch) (c : CandidateMatch) :
    Option CandidateMatch :=
  match best with
  | none => some c
  | some b => if b.logodds < c.logodds then some c else some b

/-- Modelled from the spec: converting the accepted best match into the
final Solution; parity is the sign of the transform's determinant. -/
def mkSolution (b : CandidateMatch) : Solution :=
  Solution.mk b.transform b.pairs (decide (b.transform.det < 0))

/-- Modelled from the spec: what solve returns when the search ends without
an abort — the best match if it reached logratio_tosolve, otherwise the
NoSolution failure; budget exhaustion has no failure of its own. -/
def finishSolve (tosolve : Int) (best : Option CandidateMatch) : SolveResult :=
  match best with
  | none => .failed .noSolution
  | some b => if tosolve ≤ b.logodds then .solved (mkSolution b) else .failed .noSolution

/-- Modelled from the spec: the matcher/verifier loop.  Each pass is one
unit of work (one subset probe).  At every subset boundary the loop first
observes the external abort signal, then the budget; the pair returned is
the result together with the number of probes performed. -/
def solveLoop (params : SolveParameters) (abortSignal : Nat → Bool) :
    List CandidateMatch → Nat → Option CandidateMatch → SolveResult × Nat
  | cs, step, best =>
    if abortSignal step then (.failed .aborted, step)
    else if params.budget ≤ step then (finishSolve params.logratio_tosolve best, step)
    else
      match cs with
      | [] => (finishSolve params.logratio_tosolve best, step)
      | c :: rest => solveLoop params abortSignal rest (step + 1) (updateBest best c)

/-- Modelled from the spec: the solve controller — when no loaded IndexFile
overlaps the requested scale bounds the solve fails with IndexUnavailable
before any matcher work starts; otherwise the matcher/verifier loop runs
from step 0 with an empty best-match slot. -/
def solve (params : SolveParameters) (abortSignal : Nat → Bool)
    (stars : List Star) (index : List IndexFile) : SolveResult × Nat :=
  let usable := index.filter (indexUsable params)
  if usable.isEmpty then (.failed .indexUnavailable, 0)
  else solveLoop params abortSignal (genCandidates params stars usable) 0 none

/-- Modelled from the spec: the PixelBuffer — decoded samples with the
geometry the extractor needs; samples are row-major. -/
structure PixelBuffer where
  width : Nat
  height : Nat
  pixels : List Int
deriving DecidableEq

/-- Modelled from the spec: the background model — sky level and per-pixel
noise estimate, computed robustly by an external pass. -/
structure Background where
  level : Int
  noise : Int
deriving DecidableEq

/-- Modelled from the spec: the extraction failure taxonomy (a pathological
buffer); the extractor degrades to an empty star list rather than erroring
where possible. -/
inductive ExtractionError where
  | pathologicalBuffer
deriving DecidableEq

/-- Modelled from the spec: the typed result of extract. -/
inductive ExtractResult where
  | ok (stars : List Star)
  | failure (e : ExtractionError)
deriving DecidableEq

/-- The detection threshold: background level plus k times the noise. -/
def detectThreshold (bg : Background) (k : Int) : Int := bg.level + k * bg.noise

/-- Modelled from the spec: the threshold pass — the indexed samples lying
strictly above background plus k times noise. -/
def detections (pb : PixelBuffer) (bg : Background) (k : Int) : List (Nat × Int) :=
  (pb.pixels.enum).filter (fun pv => decide (detectThreshold bg k < pv.2))

/-- Modelled from the spec: connecting detections into blobs — consecutive
indices form one blob (row-major connectivity). -/
def groupBlobs : List (Nat × Int) → List (List (Nat × Int))
  | [] => []
  | d :: ds =>
    match groupBlobs ds with
    | [] => [[d]]
    | blob :: blobs =>
      match blob with
      | [] => [d] :: blobs
      | e2 :: _ => if d.1 + 1 = e2.1 then (d :: blob) :: blobs else [d] :: blob :: blobs

/-- Modelled from the spec: the flux-weighted centroid of one blob, with
the blob's total flux; a blob with zero total flux degrades to its first
sample's position. -/
def blobStar (pb : PixelBuffer) (blob : List (Nat × Int)) : Star :=
  let total := (blob.map (fun d => d.2)).sum
  let sx := (blob.map (fun d => ((d.1 % pb.width : Nat) : Int) * d.2)).sum
  let sy := (blob.map (fun d => ((d.1 / pb.width : Nat) : Int) * d.2)).sum
  if total = 0 then
    match blob with
    | [] => Star.mk 0 0 0
    | d :: _ => Star.mk ((d.1 % pb.width : Nat) : Int) ((d.1 / pb.width : Nat) : Int) 0
  else Star.mk (sx / total) (sy / total) total

/-- Modelled from the spec: star extraction — threshold, connect, centroid;
zero detections yield an empty star list, not an error. -/
def extract (pb : PixelBuffer) (bg : Background) (k : Int) : ExtractResult :=
  .ok ((groupBlobs (detections pb bg k)).map (blobStar pb))

/-- The star list an ExtractResult carries (empty on failure). -/
def extractedStars : ExtractResult → List Star
  | .ok stars => stars
  | .failure _ => []

/-- Modelled from the spec: a whole deterministic run — extraction followed
by solve with no external abort. -/
def solveRun (params : SolveParameters) (pb : PixelBuffer) (bg : Background)
    (index : List IndexFile) : SolveResult × Nat :=
  solve params (fun _ => false) (extractedStars (extract pb bg params.detectK)) index

/-! ### Lemmas about the modelled solver core -/

/-- A candidate whose pairs all project within the tolerance. -/
def WithinTol (tol : Int) (c : CandidateMatch) : Prop :=
  ∀ p ∈ c.pairs, dist2 (c.transform.apply p.pixel) p.catalog ≤ tol * tol

theorem verifyCandidate_withinTol (tol : Int) (stars : List Star) (idx : IndexFile) :
    WithinTol tol (verifyCandidate tol stars idx) := by
  intro p hp
  have hpairs : (verifyCandidate tol stars idx).pairs
      = buildPairs tol idx.quadTransform stars idx.refStars := rfl
  have htr : (verifyCandidate tol stars idx).transform = idx.quadTransform := rfl
  rw [hpairs] at hp
  rw [htr]
  unfold buildPairs at hp
  rw [List.mem_filterMap] at hp
  obtain ⟨s, _, hmap⟩ := hp
  cases hfind : agreeingRef tol idx.refStars (idx.quadTransform.apply (s.x, s.y)) with
  | none => rw [hfind] at hmap; cases hmap
  | some r =>
    rw [hfind] at hmap
    have hp2 : p = MatchedPair.mk (s.x, s.y) r := by
      cases hmap
      rfl
    subst hp2
    have := List.find?_some hfind
    have hle : dist2 (idx.quadTransform.apply (s.x, s.y)) r ≤ tol * tol :=
      of_decide_eq_true this
    exact hle

theorem genCandidates_withinTol (params : SolveParameters) (stars : List Star)
    (index : List IndexFile) (c : CandidateMatch)
    (hc : c ∈ genCandidates params stars index) : WithinTol params.tol c := by
  unfold genCandidates at hc
  rw [List.mem_flatMap] at hc
  obtain ⟨q, _, hq⟩ := hc
  rw [List.mem_map] at hq
  obtain ⟨idx, _, hidx⟩ := hq
  subst hidx
  exact verifyCandidate_withinTol params.tol stars idx

theorem updateBest_withinTol (tol : Int) (best : Option CandidateMatch)
    (c : CandidateMatch) (hbest : ∀ b, best = some b → WithinTol tol b)
    (hc : WithinTol tol c) :
    ∀ b', updateBest best c = some b' → WithinTol tol b' := by
  intro b' h
  cases best with
  | none =>
    have h2 : some c = some b' := h
    cases h2
    exact hc
  | some b =>
    have h2 : (if b.logodds < c.logodds then some c else some b) = some b' := h
    by_cases hlt : b.logodds < c.logodds
    · rw [if_pos hlt] at h2
      cases h2
      exact hc
    · rw [if_neg hlt] at h2
      cases h2
      exact hbest _ rfl

theorem finishSolve_solved (tosolve : Int) (best : Option CandidateMatch)
    (sol : Solution) (h : finishSolve tosolve best = .solved sol) :
    ∃ b, best = some b ∧ tosolve ≤ b.logodds ∧ sol = mkSolution b := by
  cases best with
  | none =>
    have h2 : SolveResult.failed SolveFailure.noSolution = SolveResult.solved sol := h
    cases h2
  | some b =>
    have h2 : (if tosolve ≤ b.logodds then SolveResult.solved (mkSolution b)
        else SolveResult.failed SolveFailure.noSolution) = SolveResult.solved sol := h
    by_cases hts : tosolve ≤ b.logodds
    · rw [if_pos hts] at h2
      refine ⟨b, rfl, hts, ?_⟩
      cases h2
      rfl
    · rw [if_neg hts] at h2
      cases h2

theorem finishSolve_below (tosolve : Int) (best : Option CandidateMatch)
    (hb : ∀ b, best = some b → b.logodds < tosolve) :
    finishSolve tosolve best = .failed .noSolution := by
  cases best with
  | none => rfl
  | some b =>
    have hlt := hb b rfl
    show (if tosolve ≤ b.logodds then SolveResult.solved (mkSolution b)
        else SolveResult.failed SolveFailure.noSolution) = _
    rw [if_neg (by omega)]

theorem solveLoop_solved_withinTol (params : SolveParameters)
    (abortSignal : Nat → Bool) :
    ∀ (cs : List CandidateMatch) (step : Nat) (best : Option CandidateMatch)
      (sol : Solution) (n : Nat),
      (∀ c ∈ cs, WithinTol params.tol c) →
      (∀ b, best = some b → WithinTol params.tol b) →
      solveLoop params abortSignal cs step best = (.solved sol, n) →
      ∀ p ∈ sol.pairs,
        dist2 (sol.transform.apply p.pixel) p.catalog ≤ params.tol * params.tol := by
  intro cs
  induction cs with
  | nil =>
    intro step best sol n _ hbest h
    rw [solveLoop] at h
    by_cases hab : abortSignal step = true
    · rw [if_pos hab] at h
      cases h
    · rw [if_neg hab] at h
      have hfin : finishSolve params.logratio_tosolve best = .solved sol := by
        by_cases hb : params.budget ≤ step
        · rw [if_pos hb] at h
          exact congrArg Prod.fst h
        · rw [if_neg hb] at h
          exact congrArg Prod.fst h
      obtain ⟨b, hbv, _, hsol⟩ := finishSolve_solved _ _ _ hfin
      subst hsol
      intro p hp
      exact hbest b hbv p hp
  | cons c rest ih =>
    intro step best sol n hcs hbest h
    rw [solveLoop] at h
    by_cases hab : abortSignal step = true
    · rw [if_pos hab] at h
      cases h
    · rw [if_neg hab] at h
      by_cases hb : params.budget ≤ step
      · rw [if_pos hb] at h
        have hfin : finishSolve params.logratio_tosolve best = .solved sol :=
          congrArg Prod.fst h
        obtain ⟨b, hbv, _, hsol⟩ := finishSolve_solved _ _ _ hfin
        subst hsol
        intro p hp
        exact hbest b hbv p hp
      · rw [if_neg hb] at h
        refine ih (step + 1) (updateBest best c) sol n
          (fun c2 hc2 => hcs c2 (List.mem_cons_of_mem c hc2)) ?_ h
        exact updateBest_withinTol params.tol best c hbest
          (hcs c (List.mem_cons_self c rest))

theorem updateBest_below (tosolve : Int) (best : Option CandidateMatch)
    (c : CandidateMatch) (hbest : ∀ b, best = some b → b.logodds < tosolve)
    (hc : c.logodds < tosolve) :
    ∀ b', updateBest best c = some b' → b'.logodds < tosolve := by
  intro b' h
  cases best with
  | none =>
    have h2 : some c = some b' := h
    cases h2
    exact hc
  | some b =>
    have h2 : (if b.logodds < c.logodds then some c else some b) = some b' := h
    by_cases hlt : b.logodds < c.logodds
    · rw [if_pos hlt] at h2
      cases h2
      exact hc
    · rw [if_neg hlt] at h2
      cases h2
      exact hbest _ rfl

theorem solveLoop_below (params : SolveParameters) (abortSignal : Nat → Bool)
    (hab : ∀ m : Nat, abortSignal m = false) :
    ∀ (cs : List CandidateMatch) (step : Nat) (best : Option CandidateMatch),
      (∀ c ∈ cs.take (params.budget - step), c.logodds < params.logratio_tosolve) →
      (∀ b, best = some b → b.logodds < params.logratio_tosolve) →
      (solveLoop params abortSignal cs step best).1 = .failed .noSolution := by
  intro cs
  induction cs with
  | nil =>
    intro step best _ hbest
    rw [solveLoop, hab step, if_neg (by simp)]
    by_cases hb : params.budget ≤ step
    · rw [if_pos hb]
      exact finishSolve_below _ _ hbest
    · rw [if_neg hb]
      exact finishSolve_below _ _ hbest
  | cons c rest ih =>
    intro step best hcs hbest
    rw [solveLoop, hab step, if_neg (by simp)]
    by_cases hb : params.budget ≤ step
    · rw [if_pos hb]
      exact finishSolve_below _ _ hbest
    · rw [if_neg hb]
      have hsplit : params.budget - step = (params.budget - (step + 1)) + 1 := by
        omega
      have hc : c.logodds < params.logratio_tosolve := by
        apply hcs
        rw [hsplit, List.take_succ_cons]
        exact List.mem_cons_self c _
      apply ih (step + 1)
      · intro c2 hc2
        apply hcs
        rw [hsplit, List.take_succ_cons]
        exact List.mem_cons_of_mem c hc2
      · exact updateBest_below _ best c hbest hc

theorem solveLoop_abort (params : SolveParameters) (abortSignal : Nat → Bool)
    (t : Nat) (ht : abortSignal t = true) (hbudget : t < params.budget) :
    ∀ (cs : List CandidateMatch) (step : Nat) (best : Option CandidateMatch),
      step ≤ t → t < step + cs.length →
      (solveLoop params abortSignal cs step best).1 = .failed .aborted
      ∧ (solveLoop params abortSignal cs step best).2 ≤ t := by
  intro cs
  induction cs with
  | nil =>
    intro step best hle hlt
    simp at hlt
    omega
  | cons c rest ih =>
    intro step best hle hlt
    rw [solveLoop]
    by_cases hab : abortSignal step = true
    · rw [if_pos hab]
      exact ⟨rfl, hle⟩
    · have hst : step ≠ t := by
        intro hh
        rw [hh] at hab
        exact hab ht
      have hstep : step < t := by omega
      rw [if_neg hab, if_neg (by omega)]
      apply ih (step + 1) (updateBest best c) (by omega)
      simp at hlt ⊢
      omega

theorem solve_eq (params : SolveParameters) (abortSignal : Nat → Bool)
    (stars : List Star) (index : List IndexFile) :
    solve params abortSignal stars index =
      if (index.filter (indexUsable params)).isEmpty then
        (.failed .indexUnavailable, 0)
      else
        solveLoop params abortSignal
          (genCandidates params stars (index.filter (indexUsable params))) 0 none :=
  rfl

theorem genCandidates_nil_stars (params : SolveParameters) (index : List IndexFile) :
    genCandidates params [] index = [] := rfl

theorem genCandidates_nil_index (params : SolveParameters) (stars : List Star) :
    genCandidates params stars [] = [] := by
  unfold genCandidates
  induction quads stars with
  | nil => rfl
  | cons q qs ih => rw [List.flatMap_cons, ih]; rfl

/-! ### Claim theorems for the modelled solver core -/

/-- C1: for every successful solve, the produced Solution is internally
consistent — every matched star's pixel position, projected through the
Solution's transform, lands within the solver's agreement tolerance
(compared on squared distance) of its corresponding catalog star's sky
position. -/
theorem solution_round_trip (params : SolveParameters) (abortSignal : Nat → Bool)
    (stars : List Star) (index : List IndexFile) (sol : Solution) (n : Nat)
    (h : solve params abortSignal stars index = (.solved sol, n)) :
    sol.pairs.all (fun p =>
      decide (dist2 (sol.transform.apply p.pixel) p.catalog
        ≤ params.tol * params.tol)) = true := by
  rw [solve_eq] at h
  by_cases hu : (index.filter (indexUsable params)).isEmpty = true
  · rw [if_pos hu] at h
    have h2 : SolveResult.failed SolveFailure.indexUnavailable
        = SolveResult.solved sol := congrArg Prod.fst h
    cases h2
  · rw [if_neg hu] at h
    have hall := solveLoop_solved_withinTol params abortSignal
      (genCandidates params stars (index.filter (indexUsable params))) 0 none sol n
      (fun c hc => genCandidates_withinTol params stars _ c hc)
      (fun b hb => Option.noConfusion hb) h
    rw [List.all_eq_true]
    intro p hp
    rw [decide_eq_true_eq]
    exact hall p hp

/-- C1 witness: a concrete four-star field solved against a one-entry index
with the identity transform hypothesis; every matched pair of the produced
Solution projects exactly onto its catalog star. -/
theorem solution_round_trip_witness :
    (Solution.mk (Transform.mk 1 0 0 0 1 0)
        [MatchedPair.mk (0, 0) (0, 0), MatchedPair.mk (1, 0) (1, 0),
          MatchedPair.mk (0, 1) (0, 1), MatchedPair.mk (1, 1) (1, 1)] false).pairs.all
      (fun p =>
        decide (dist2 ((Solution.mk (Transform.mk 1 0 0 0 1 0)
            [MatchedPair.mk (0, 0) (0, 0), MatchedPair.mk (1, 0) (1, 0),
              MatchedPair.mk (0, 1) (0, 1),
              MatchedPair.mk (1, 1) (1, 1)] false).transform.apply p.pixel) p.catalog
          ≤ (SolveParameters.mk 30 20 40 5 0 0 0 10 2).tol
            * (SolveParameters.mk 30 20 40 5 0 0 0 10 2).tol)) = true :=
  solution_round_trip (SolveParameters.mk 30 20 40 5 0 0 0 10 2) (fun _ => false)
    [Star.mk 0 0 10, Star.mk 1 0 10, Star.mk 0 1 10, Star.mk 1 1 10]
    [IndexFile.mk 6 (Transform.mk 1 0 0 0 1 0) [(0, 0), (1, 0), (0, 1), (1, 1)] 0 10]
    (Solution.mk (Transform.mk 1 0 0 0 1 0)
      [MatchedPair.mk (0, 0) (0, 0), MatchedPair.mk (1, 0) (1, 0),
        MatchedPair.mk (0, 1) (0, 1), MatchedPair.mk (1, 1) (1, 1)] false) 1
    (by decide)

/-- C2: when the abort signal never fires and no candidate examined before
the attempt budget runs out reaches logratio_tosolve, solve returns the
NoSolution failure (given a usable index, so the run gets past the
IndexUnavailable check); budget exhaustion is reported as NoSolution and as
nothing else. -/
theorem budget_exhaustion_no_solution (params : SolveParameters)
    (abortSignal : Nat → Bool) (stars : List Star) (index : List IndexFile)
    (hab : ∀ m : Nat, abortSignal m = false)
    (hno : ∀ c ∈ (genCandidates params stars
        (index.filter (indexUsable params))).take params.budget,
      c.logodds < params.logratio_tosolve)
    (husable : (index.filter (indexUsable params)).isEmpty = false) :
    (solve params abortSignal stars index).1 = .failed .noSolution := by
  rw [solve_eq, if_neg (by rw [husable]; exact Bool.false_ne_true)]
  apply solveLoop_below params abortSignal hab _ 0 none
  · intro c hc
    apply hno
    rw [Nat.sub_zero] at hc
    exact hc
  · intro b hb
    cases hb

/-- C2 witness: a concrete run whose single candidate scores 36, below the
logratio_tosolve threshold of 1000, ends in NoSolution. -/
theorem budget_exhaustion_no_solution_witness :
    (solve (SolveParameters.mk 1000 20 40 5 0 0 0 10 2) (fun _ => false)
      [Star.mk 0 0 10, Star.mk 1 0 10, Star.mk 0 1 10, Star.mk 1 1 10]
      [IndexFile.mk 6 (Transform.mk 1 0 0 0 1 0)
        [(0, 0), (1, 0), (0, 1), (1, 1)] 0 10]).1 = .failed .noSolution :=
  budget_exhaustion_no_solution (SolveParameters.mk 1000 20 40 5 0 0 0 10 2)
    (fun _ => false)
    [Star.mk 0 0 10, Star.mk 1 0 10, Star.mk 0 1 10, Star.mk 1 1 10]
    [IndexFile.mk 6 (Transform.mk 1 0 0 0 1 0) [(0, 0), (1, 0), (0, 1), (1, 1)] 0 10]
    (fun _ => rfl) (by decide) (by decide)

/-- The log-odds score held by the best-match slot, with a default for the
empty slot. -/
def bestScoreOr (d : Int) : Option CandidateMatch → Int
  | none => d
  | some b => b.logodds

theorem foldl_updateBest_mono (d : Int) :
    ∀ (cs : List CandidateMatch) (b : CandidateMatch),
      b.logodds ≤ bestScoreOr d (List.foldl updateBest (some b) cs) := by
  intro cs
  induction cs with
  | nil => intro b; exact le_refl _
  | cons c rest ih =>
    intro b
    rw [List.foldl_cons]
    by_cases hlt : b.logodds < c.logodds
    · have hup : updateBest (some b) c = some c := by
        show (if b.logodds < c.logodds then some c else some b) = some c
        rw [if_pos hlt]
      rw [hup]
      exact le_trans (le_of_lt hlt) (ih c)
    · have hup : updateBest (some b) c = some b := by
        show (if b.logodds < c.logodds then some c else some b) = some b
        rw [if_neg hlt]
      rw [hup]
      exact ih b

/-- C3: the recorded best-match log-odds score is non-decreasing over a
solve: one update of the best-match slot never lowers the held score, the
held candidate is replaced only by a candidate with a strictly higher
log-odds score, and across any run of updates the final held score is at
least the starting one. -/
theorem best_match_monotone (cs : List CandidateMatch) (b c b' : CandidateMatch)
    (hstep : updateBest (some b) c = some b') :
    b.logodds ≤ b'.logodds
    ∧ (b' ≠ b → b' = c ∧ b.logodds < c.logodds)
    ∧ b.logodds ≤ bestScoreOr b.logodds (List.foldl updateBest (some b) cs) := by
  refine ⟨?_, ?_, foldl_updateBest_mono b.logodds cs b⟩
  all_goals
    have h2 : (if b.logodds < c.logodds then some c else some b) = some b' := hstep
  · by_cases hlt : b.logodds < c.logodds
    · rw [if_pos hlt] at h2
      cases h2
      exact le_of_lt hlt
    · rw [if_neg hlt] at h2
      cases h2
      exact le_refl _
  · by_cases hlt : b.logodds < c.logodds
    · rw [if_pos hlt] at h2
      cases h2
      intro _
      exact ⟨rfl, hlt⟩
    · rw [if_neg hlt] at h2
      cases h2
      intro hne
      exact absurd rfl hne

/-- C3 witness: a concrete update replacing a best of score 5 with a
candidate of score 7, and a concrete two-candidate run, keep the recorded
score non-decreasing. -/
theorem best_match_monotone_witness :
    (CandidateMatch.mk (Transform.mk 1 0 0 0 1 0) [] 5).logodds
        ≤ (CandidateMatch.mk (Transform.mk 1 0 0 0 1 0) [] 7).logodds
    ∧ (CandidateMatch.mk (Transform.mk 1 0 0 0 1 0) [] 7
          ≠ CandidateMatch.mk (Transform.mk 1 0 0 0 1 0) [] 5 →
        CandidateMatch.mk (Transform.mk 1 0 0 0 1 0) [] 7
            = CandidateMatch.mk (Transform.mk 1 0 0 0 1 0) [] 7
          ∧ (CandidateMatch.mk (Transform.mk 1 0 0 0 1 0) [] 5).logodds
              < (CandidateMatch.mk (Transform.mk 1 0 0 0 1 0) [] 7).logodds)
    ∧ (CandidateMatch.mk (Transform.mk 1 0 0 0 1 0) [] 5).logodds
        ≤ bestScoreOr (CandidateMatch.mk (Transform.mk 1 0 0 0 1 0) [] 5).logodds
            (List.foldl updateBest
              (some (CandidateMatch.mk (Transform.mk 1 0 0 0 1 0) [] 5))
              [CandidateMatch.mk (Transform.mk 1 0 0 0 1 0) [] 3,
                CandidateMatch.mk (Transform.mk 1 0 0 0 1 0) [] 9]) :=
  best_match_monotone
    [CandidateMatch.mk (Transform.mk 1 0 0 0 1 0) [] 3,
      CandidateMatch.mk (Transform.mk 1 0 0 0 1 0) [] 9]
    (CandidateMatch.mk (Transform.mk 1 0 0 0 1 0) [] 5)
    (CandidateMatch.mk (Transform.mk 1 0 0 0 1 0) [] 7)
    (CandidateMatch.mk (Transform.mk 1 0 0 0 1 0) [] 7)
    (by decide)

/-- C4: solve is deterministic — two runs on equal pixel buffers, equal
background statistics, equal index catalogs and equal parameters produce
equal results, bit for bit. -/
theorem solve_deterministic (params1 params2 : SolveParameters)
    (pb1 pb2 : PixelBuffer) (bg1 bg2 : Background)
    (index1 index2 : List IndexFile)
    (hp : params1 = params2) (hpb : pb1 = pb2) (hbg : bg1 = bg2)
    (hidx : index1 = index2) :
    solveRun params1 pb1 bg1 index1 = solveRun params2 pb2 bg2 index2 := by
  subst hp
  subst hpb
  subst hbg
  subst hidx
  rfl

/-- C4 witness: the determinism theorem applied at a concrete run. -/
theorem solve_deterministic_witness :
    solveRun (SolveParameters.mk 30 20 40 5 0 0 0 10 2)
        (PixelBuffer.mk 2 1 [0, 9]) (Background.mk 5 1)
        [IndexFile.mk 6 (Transform.mk 1 0 0 0 1 0) [(0, 0)] 0 10]
      = solveRun (SolveParameters.mk 30 20 40 5 0 0 0 10 2)
        (PixelBuffer.mk 2 1 [0, 9]) (Background.mk 5 1)
        [IndexFile.mk 6 (Transform.mk 1 0 0 0 1 0) [(0, 0)] 0 10] :=
  solve_deterministic (SolveParameters.mk 30 20 40 5 0 0 0 10 2)
    (SolveParameters.mk 30 20 40 5 0 0 0 10 2)
    (PixelBuffer.mk 2 1 [0, 9]) (PixelBuffer.mk 2 1 [0, 9])
    (Background.mk 5 1) (Background.mk 5 1)
    [IndexFile.mk 6 (Transform.mk 1 0 0 0 1 0) [(0, 0)] 0 10]
    [IndexFile.mk 6 (Transform.mk 1 0 0 0 1 0) [(0, 0)] 0 10]
    rfl rfl rfl rfl

/-- C5: when the abort signal is set at probe boundary t while matching
work remains (t is under the budget and under the number of pending subset
probes), solve returns the Aborted failure — so no partial Solution is
visible — and performs at most t probes: at most one unit of work beyond
the moment the signal was raised. -/
theorem abort_during_matching (params : SolveParameters) (abortSignal : Nat → Bool)
    (stars : List Star) (index : List IndexFile) (t : Nat)
    (ht : abortSignal t = true)
    (hbudget : t < params.budget)
    (hwork : t < (genCandidates params stars
      (index.filter (indexUsable params))).length) :
    (solve params abortSignal stars index).1 = .failed .aborted
    ∧ (solve params abortSignal stars index).2 ≤ t := by
  rw [solve_eq]
  by_cases hu : (index.filter (indexUsable params)).isEmpty = true
  · exfalso
    have hnil : index.filter (indexUsable params) = [] := by
      rw [List.isEmpty_iff] at hu
      exact hu
    rw [hnil, genCandidates_nil_index] at hwork
    simp at hwork
  · rw [if_neg hu]
    exact solveLoop_abort params abortSignal t ht hbudget _ 0 none (Nat.zero_le t)
      (by simpa using hwork)

/-- C5 witness: with the abort signal raised from the start, the concrete
four-star run returns Aborted after zero probes. -/
theorem abort_during_matching_witness :
    (solve (SolveParameters.mk 30 20 40 5 0 0 0 10 2) (fun _ => true)
        [Star.mk 0 0 10, Star.mk 1 0 10, Star.mk 0 1 10, Star.mk 1 1 10]
        [IndexFile.mk 6 (Transform.mk 1 0 0 0 1 0)
          [(0, 0), (1, 0), (0, 1), (1, 1)] 0 10]).1 = .failed .aborted
    ∧ (solve (SolveParameters.mk 30 20 40 5 0 0 0 10 2) (fun _ => true)
        [Star.mk 0 0 10, Star.mk 1 0 10, Star.mk 0 1 10, Star.mk 1 1 10]
        [IndexFile.mk 6 (Transform.mk 1 0 0 0 1 0)
          [(0, 0), (1, 0), (0, 1), (1, 1)] 0 10]).2 ≤ 0 :=
  abort_during_matching (SolveParameters.mk 30 20 40 5 0 0 0 10 2) (fun _ => true)
    [Star.mk 0 0 10, Star.mk 1 0 10, Star.mk 0 1 10, Star.mk 1 1 10]
    [IndexFile.mk 6 (Transform.mk 1 0 0 0 1 0) [(0, 0), (1, 0), (0, 1), (1, 1)] 0 10]
    0 rfl (by decide) (by decide)

/-- C6: a pixel buffer in which the threshold pass detects nothing yields
an empty star list from extract — the typed ok result, never an error —
and a subsequent solve on that empty star list (given a usable index and
no abort at the first boundary) returns the NoSolution failure. -/
theorem empty_field_no_solution (pb : PixelBuffer) (bg : Background) (k : Int)
    (params : SolveParameters) (abortSignal : Nat → Bool) (index : List IndexFile)
    (hdet : detections pb bg k = [])
    (hab : abortSignal 0 = false) :
    extract pb bg k = .ok []
    ∧ ((index.filter (indexUsable params)).isEmpty = false →
        (solve params abortSignal (extractedStars (extract pb bg k)) index).1
          = .failed .noSolution) := by
  have hext : extract pb bg k = .ok [] := by
    unfold extract
    rw [hdet]
    rfl
  refine ⟨hext, ?_⟩
  intro husable
  rw [hext]
  have hstars : extractedStars (ExtractResult.ok []) = [] := rfl
  rw [hstars, solve_eq, if_neg (by rw [husable]; exact Bool.false_ne_true),
    genCandidates_nil_stars, solveLoop, hab, if_neg (by simp)]
  by_cases hb : params.budget ≤ 0
  · rw [if_pos hb]
    rfl
  · rw [if_neg hb]
    rfl

/-- C6 witness: a two-pixel buffer lying entirely below the detection
threshold extracts an empty star list and the subsequent solve against a
usable one-entry index returns NoSolution. -/
theorem empty_field_no_solution_witness :
    extract (PixelBuffer.mk 2 1 [0, 0]) (Background.mk 5 1) 2 = .ok []
    ∧ (([IndexFile.mk 6 (Transform.mk 1 0 0 0 1 0) [(0, 0)] 0 10].filter
          (indexUsable (SolveParameters.mk 30 20 40 5 0 0 0 10 2))).isEmpty = false →
        (solve (SolveParameters.mk 30 20 40 5 0 0 0 10 2) (fun _ => false)
          (extractedStars (extract (PixelBuffer.mk 2 1 [0, 0]) (Background.mk 5 1) 2))
          [IndexFile.mk 6 (Transform.mk 1 0 0 0 1 0) [(0, 0)] 0 10]).1
          = .failed .noSolution) :=
  empty_field_no_solution (PixelBuffer.mk 2 1 [0, 0]) (Background.mk 5 1) 2
    (SolveParameters.mk 30 20 40 5 0 0 0 10 2) (fun _ => false)
    [IndexFile.mk 6 (Transform.mk 1 0 0 0 1 0) [(0, 0)] 0 10]
    (by decide) rfl

end StellarSolverSpec
